import Mathlib

/-!
Verification of the rVPNSE unified build system (`tools/build.py`).

The Python source is shallowly embedded: paths are lists of components,
the filesystem and subprocess layer is an oracle (`World`), and every
effectful routine returns the list of side effects (`Event`s) it performs
together with its result.  Exceptions raised by the Python code are
modelled with `Except`.
-/

namespace RVPNSE

/-- `BuildMode` enum from `build.py` (`debug` / `release`). -/
inductive BuildMode where
  | debug
  | release
deriving DecidableEq, Repr

/-- `BuildMode.value` in Python: the string payload of the enum member. -/
def BuildMode.value : BuildMode → String
  | .debug => "debug"
  | .release => "release"

/-- `Platform` enum from `build.py`. -/
inductive Platform where
  | linux
  | macos
  | windows
  | android
  | ios
deriving DecidableEq, Repr

/-- `Target` dataclass from `build.py`. -/
structure Target where
  name : String
  rust_target : String
  platform : Platform
  arch : String
  android_arch : Option String := none
  min_api : Option Nat := none
deriving DecidableEq, Repr

/-- The fixed `TARGETS` catalogue from `build.py`, in source (insertion)
order, as an association list from symbolic name to descriptor. -/
def TARGETS : List (String × Target) :=
  [ ("linux-x64", ⟨"linux-x64", "x86_64-unknown-linux-gnu", .linux, "x64", none, none⟩),
    ("macos-x64", ⟨"macos-x64", "x86_64-apple-darwin", .macos, "x64", none, none⟩),
    ("macos-arm64", ⟨"macos-arm64", "aarch64-apple-darwin", .macos, "arm64", none, none⟩),
    ("windows-x64", ⟨"windows-x64", "x86_64-pc-windows-msvc", .windows, "x64", none, none⟩),
    ("android-arm64", ⟨"android-arm64", "aarch64-linux-android", .android, "arm64", some "arm64-v8a", some 21⟩),
    ("android-arm", ⟨"android-arm", "armv7-linux-androideabi", .android, "arm", some "armeabi-v7a", some 19⟩),
    ("android-x64", ⟨"android-x64", "x86_64-linux-android", .android, "x64", some "x86_64", some 21⟩),
    ("android-x86", ⟨"android-x86", "i686-linux-android", .android, "x86", some "x86", some 19⟩),
    ("ios-arm64", ⟨"ios-arm64", "aarch64-apple-ios", .ios, "arm64", none, none⟩),
    ("ios-x64-sim", ⟨"ios-x64-sim", "x86_64-apple-ios", .ios, "x64", none, none⟩),
    ("ios-arm64-sim", ⟨"ios-arm64-sim", "aarch64-apple-ios-sim", .ios, "arm64", none, none⟩) ]

/-- `TARGETS[name]` lookup (`dict` access modelled as first association
with the given key). -/
def lookupTarget (n : String) : Option Target :=
  (TARGETS.find? (fun p => p.1 = n)).map (fun p => p.2)

/-- The character-level effect of Python's `.replace("-", "_")` (the
pattern is a single character, so the substring replacement acts
characterwise). -/
def dashToUnderscore (c : Char) : Char :=
  if c = '-' then '_' else c

/-- `target.rust_target.upper().replace("-", "_")` from
`_setup_android_environment` (line 171): the environment-variable-name
mangling applied to a compiler triple.  A string is its list of
characters; `.upper()` on the ASCII triples is characterwise
`Char.toUpper`. -/
def mangle (s : String) : String :=
  String.mk ((s.data.map Char.toUpper).map dashToUnderscore)

/-- `_get_library_name`: expected artifact filename for a target. -/
def get_library_name (t : Target) : String :=
  if t.platform = Platform.windows then "rvpnse.dll"
  else if t.platform = Platform.macos ∨ t.platform = Platform.ios then "librvpnse.dylib"
  else "librvpnse.so"

/-- A filesystem path, as its list of components (`pathlib.Path`). -/
abbrev FsPath : Type := List String

/-- `str(path)`: the string rendering of a path. -/
def pathStr (p : FsPath) : String :=
  String.intercalate "/" p

/-- One observable side effect of the builder: a subprocess call
(`subprocess.run` via `_run_command`), a filesystem mutation
(`shutil.rmtree`, `mkdir`, `shutil.copy2`, `write_text`/`chmod`), or an
archive creation (`shutil.make_archive fmt base dir`). -/
inductive Event where
  | run (cmd : List String)
  | rmtreeE (p : FsPath)
  | mkdirE (p : FsPath)
  | copyE (src dst : FsPath)
  | writeE (p : FsPath)
  | archiveE (fmt : String) (base : FsPath) (dir : FsPath)
deriving DecidableEq, Repr

/-- The host machine as the builder observes it: the filesystem at each
query point, subprocess exit statuses, the relevant environment
variables, and the host OS.  `envNdkRoot` is `ANDROID_NDK_ROOT` parsed
as a path (`none` covers both unset and the empty string, which Python
treats as falsy); `runOk cmd` is whether `subprocess.run cmd` exits
zero; `cargoAvailable` is `shutil.which("cargo")`. -/
structure World where
  pathExists : FsPath → Bool
  runOk : List String → Bool
  cargoAvailable : Bool
  envNdkRoot : Option FsPath
  homeDir : FsPath
  hostSystem : String

/-- The four conventional NDK install locations from
`_find_android_ndk`, in source order. -/
def possible_paths (home : FsPath) : List FsPath :=
  [ home ++ ["Android", "Sdk", "ndk", "25.2.9519653"],
    home ++ ["Library", "Android", "sdk", "ndk", "25.2.9519653"],
    ["usr", "local", "android-ndk-r25c"],
    ["opt", "android-ndk-r25c"] ]

/-- `_find_android_ndk`: the environment-variable override wins whenever
its path exists (no structure check); otherwise the first conventional
location that exists and contains `toolchains/llvm/prebuilt`; otherwise
`None`. -/
def find_android_ndk (w : World) : Option FsPath :=
  let conventional :=
    (possible_paths w.homeDir).find? (fun p =>
      w.pathExists p && w.pathExists (p ++ ["toolchains", "llvm", "prebuilt"]))
  match w.envNdkRoot with
  | some p => if w.pathExists p then some p else conventional
  | none => conventional

/-- The `clang_targets` table of `_setup_android_environment`: the
platform-version-qualified clang invocation name per Android triple.
Python renders a missing `min_api` as the string `None`. -/
def clang_target_of (t : Target) : Option String :=
  let api := match t.min_api with
             | some n => toString n
             | none => "None"
  if t.rust_target = "aarch64-linux-android" then some ("aarch64-linux-android" ++ api)
  else if t.rust_target = "armv7-linux-androideabi" then some ("armv7a-linux-androideabi" ++ api)
  else if t.rust_target = "x86_64-linux-android" then some ("x86_64-linux-android" ++ api)
  else if t.rust_target = "i686-linux-android" then some ("i686-linux-android" ++ api)
  else none

/-- The host-OS-specific toolchain subdirectory selected by
`_setup_android_environment`. -/
def toolchainDir (w : World) (ndk : FsPath) : FsPath :=
  if w.hostSystem = "darwin" then
    ndk ++ ["toolchains", "llvm", "prebuilt", "darwin-x86_64"]
  else
    ndk ++ ["toolchains", "llvm", "prebuilt", "linux-x86_64"]

/-- `_setup_android_environment`: the synthesized environment variables
for an Android target, or the `RuntimeError` / `KeyError` the Python
code raises (NDK absent, toolchain directory missing, triple not in the
`clang_targets` table). -/
def setup_android_environment (w : World) (ndk : Option FsPath) (t : Target) :
    Except String (List (String × String)) :=
  match ndk with
  | none => .error "Android NDK not found"
  | some nd =>
    let tdir := toolchainDir w nd
    if ¬ w.pathExists tdir then .error "Android toolchain not found"
    else
      match clang_target_of t with
      | none => .error "KeyError"
      | some ct =>
        let tu := mangle t.rust_target
        .ok
          [ ("ANDROID_NDK_ROOT", pathStr nd),
            ("ANDROID_NDK_HOME", pathStr nd),
            ("CC_" ++ tu, pathStr (tdir ++ ["bin", ct ++ "-clang"])),
            ("CXX_" ++ tu, pathStr (tdir ++ ["bin", ct ++ "-clang++"])),
            ("AR_" ++ tu, pathStr (tdir ++ ["bin", "llvm-ar"])),
            ("CARGO_TARGET_" ++ tu ++ "_LINKER", pathStr (tdir ++ ["bin", ct ++ "-clang"])) ]

/-- `project_root / "target"`. -/
def buildDir (root : FsPath) : FsPath := root ++ ["target"]

/-- `project_root / "dist"`. -/
def outputDir (root : FsPath) : FsPath := root ++ ["dist"]

/-- The `cargo build` command line for a triple in a mode. -/
def cargoCmd (mode : BuildMode) (rt : String) : List String :=
  ["cargo", "build", "--target", rt] ++
    (if mode = BuildMode.release then ["--release"] else [])

/-- The expected artifact path for a target:
`build_dir / rust_target / mode / library_name`. -/
def libPath (root : FsPath) (mode : BuildMode) (t : Target) : FsPath :=
  buildDir root ++ [t.rust_target, mode.value, get_library_name t]

/-- `_build_target`: clean the stale per-triple directory, refuse an
Android target when no NDK was found, synthesize the Android
environment (which may raise), invoke `cargo build`, and succeed only
if the tool exited zero and the expected artifact file exists.  Returns
the performed events and the success flag (or the propagated
exception). -/
def build_target (w : World) (ndk : Option FsPath) (root : FsPath) (mode : BuildMode)
    (t : Target) : List Event × Except String Bool :=
  let tdir := buildDir root ++ [t.rust_target]
  let cleanEv : List Event := if w.pathExists tdir then [.rmtreeE tdir] else []
  if t.platform = Platform.android ∧ ndk = none then
    (cleanEv, .ok false)
  else
    let envRes : Except String Unit :=
      if t.platform = Platform.android then
        (setup_android_environment w ndk t).map (fun _ => ())
      else .ok ()
    match envRes with
    | .error e => (cleanEv, .error e)
    | .ok _ =>
      let cmd := cargoCmd mode t.rust_target
      let ev := cleanEv ++ [.run cmd]
      if w.runOk cmd then
        if w.pathExists (libPath root mode t) then (ev, .ok true) else (ev, .ok false)
      else (ev, .ok false)

/-- `_package_target`: stage a desktop artifact with header and docs,
archive it (`zip` on Windows, gzip-tar otherwise), then remove the
staging directory.  Returns `none` without side effects when the
artifact is missing. -/
def package_target (w : World) (root : FsPath) (mode : BuildMode) (t : Target) :
    List Event × Option FsPath :=
  let lib := libPath root mode t
  if ¬ w.pathExists lib then ([], none)
  else
    let package_dir := outputDir root ++ ["rvpnse-" ++ t.name]
    let ev1 : List Event := [.mkdirE package_dir, .copyE lib package_dir]
    let headerF := root ++ ["include", "rvpnse.h"]
    let ev2 : List Event := if w.pathExists headerF then [.copyE headerF package_dir] else []
    let readmeF := root ++ ["README.md"]
    let ev3 : List Event := if w.pathExists readmeF then [.copyE readmeF package_dir] else []
    let fmt := if t.platform = Platform.windows then "zip" else "gztar"
    let archive_path :=
      if t.platform = Platform.windows then
        outputDir root ++ ["rvpnse-" ++ t.name ++ ".zip"]
      else
        outputDir root ++ ["rvpnse-" ++ t.name ++ ".tar.gz"]
    (ev1 ++ ev2 ++ ev3 ++
       [.archiveE fmt (outputDir root ++ ["rvpnse-" ++ t.name]) package_dir,
        .rmtreeE package_dir],
     some archive_path)

/-- The Android bundle staging directory `dist/rvpnse-android`. -/
def androidBundleDir (root : FsPath) : FsPath :=
  outputDir root ++ ["rvpnse-android"]

/-- `_package_android_bundle`: copy every present per-architecture
`librvpnse.so` into `jniLibs/<android_arch>`, skipping missing ones
with a warning, add header, docs and an installer script, archive the
tree as gzip-tar and remove it.  (Registry Android targets always carry
an `android_arch`; Python would raise on `None`, rendered here as the
placeholder component.) -/
def package_android_bundle (w : World) (root : FsPath) (mode : BuildMode)
    (android_targets : List Target) : List Event × Option FsPath :=
  let bundle_dir := androidBundleDir root
  let jni_libs_dir := bundle_dir ++ ["jniLibs"]
  let ev0 : List Event := [.mkdirE jni_libs_dir]
  let copyEv : List Event := android_targets.flatMap (fun t =>
    let lib := buildDir root ++ [t.rust_target, mode.value, "librvpnse.so"]
    if w.pathExists lib then
      let arch_dir := jni_libs_dir ++ [t.android_arch.getD "None"]
      [.mkdirE arch_dir, .copyE lib (arch_dir ++ ["librvpnse.so"])]
    else [])
  let headerF := root ++ ["include", "rvpnse.h"]
  let ev2 : List Event := if w.pathExists headerF then [.copyE headerF bundle_dir] else []
  let readmeF := root ++ ["README.md"]
  let ev3 : List Event := if w.pathExists readmeF then [.copyE readmeF bundle_dir] else []
  let ev4 : List Event := [.writeE (bundle_dir ++ ["install.sh"])]
  (ev0 ++ copyEv ++ ev2 ++ ev3 ++ ev4 ++
     [.archiveE "gztar" (outputDir root ++ ["rvpnse-android"]) bundle_dir,
      .rmtreeE bundle_dir],
   some (outputDir root ++ ["rvpnse-android.tar.gz"]))

/-- The iOS bundle staging directory `dist/rvpnse-ios`. -/
def iosBundleDir (root : FsPath) : FsPath :=
  outputDir root ++ ["rvpnse-ios"]

/-- `rVPNSE-Device.framework` inside the iOS bundle. -/
def deviceFwDir (root : FsPath) : FsPath :=
  iosBundleDir root ++ ["rVPNSE-Device.framework"]

/-- `rVPNSE-Simulator.framework` inside the iOS bundle. -/
def simFwDir (root : FsPath) : FsPath :=
  iosBundleDir root ++ ["rVPNSE-Simulator.framework"]

/-- The per-target library path the iOS bundler probes
(`librvpnse.dylib` is hard-coded there). -/
def iosLibPath (root : FsPath) (mode : BuildMode) (t : Target) : FsPath :=
  buildDir root ++ [t.rust_target, mode.value, "librvpnse.dylib"]

/-- The grouping loop of `_package_ios_bundle` (lines 361-374): targets
whose library exists are split into the device group (triple exactly
`aarch64-apple-ios`) and the simulator group (every other triple), in
request order, paired with their library paths. -/
def iosGroups (w : World) (root : FsPath) (mode : BuildMode) :
    List Target → List (Target × FsPath) × List (Target × FsPath)
  | [] => ([], [])
  | t :: ts =>
    let (d, s) := iosGroups w root mode ts
    let lib := iosLibPath root mode t
    if w.pathExists lib then
      if t.rust_target = "aarch64-apple-ios" then ((t, lib) :: d, s)
      else (d, (t, lib) :: s)
    else (d, s)

/-- The `lipo -create -output <out> <libs...>` command line. -/
def lipoCmd (out : FsPath) (g : List (Target × FsPath)) : List String :=
  ["lipo", "-create", "-output", pathStr out] ++ g.map (fun p => pathStr p.2)

/-- One framework-producing step of `_package_ios_bundle`: nothing for
an empty group, a direct copy for a single architecture, one `lipo`
merge over the group's paths otherwise; the flag records whether the
step succeeded (`lipo` exiting non-zero fails it). -/
def frameworkStep (w : World) (fw_dir : FsPath) (group : List (Target × FsPath)) :
    List Event × Bool :=
  match group with
  | [] => ([], true)
  | [g] => ([.mkdirE fw_dir, .copyE g.2 (fw_dir ++ ["rVPNSE"])], true)
  | g1 :: g2 :: rest =>
    let cmd := lipoCmd (fw_dir ++ ["rVPNSE"]) (g1 :: g2 :: rest)
    ([.mkdirE fw_dir, .run cmd], w.runOk cmd)

/-- The metadata synthesis for one framework directory (lines 443-460):
`Info.plist`, a `Headers` directory, and — when the public header
exists — the header copy and `module.modulemap`. -/
def frameworkMetaEvents (w : World) (root : FsPath) (fw_dir : FsPath) : List Event :=
  [.writeE (fw_dir ++ ["Info.plist"]), .mkdirE (fw_dir ++ ["Headers"])] ++
    (if w.pathExists (root ++ ["include", "rvpnse.h"]) then
      [.copyE (root ++ ["include", "rvpnse.h"]) (fw_dir ++ ["Headers"]),
       .writeE (fw_dir ++ ["Headers", "module.modulemap"])]
    else [])

/-- `_package_ios_bundle`: group the targets, bail out (leaving the
freshly created bundle directory) when nothing was found or when a
`lipo` merge fails, otherwise synthesize metadata for each framework
that was created (the `framework_path.exists()` probe holds exactly
when the group was non-empty, the output directory having been cleared
at run start), add docs and installer, archive and remove the bundle
tree. -/
def package_ios_bundle (w : World) (root : FsPath) (mode : BuildMode)
    (ios_targets : List Target) : List Event × Option FsPath :=
  let bundle_dir := iosBundleDir root
  let ev0 : List Event := [.mkdirE bundle_dir]
  let dev := (iosGroups w root mode ios_targets).1
  let sim := (iosGroups w root mode ios_targets).2
  if dev = [] ∧ sim = [] then (ev0, none)
  else
    let devStep := frameworkStep w (deviceFwDir root) dev
    if ¬ devStep.2 then (ev0 ++ devStep.1, none)
    else
      let simStep := frameworkStep w (simFwDir root) sim
      if ¬ simStep.2 then (ev0 ++ devStep.1 ++ simStep.1, none)
      else
        let metaEv :=
          (if dev ≠ [] then frameworkMetaEvents w root (deviceFwDir root) else []) ++
          (if sim ≠ [] then frameworkMetaEvents w root (simFwDir root) else [])
        let readmeEv : List Event :=
          if w.pathExists (root ++ ["README.md"]) then
            [.copyE (root ++ ["README.md"]) bundle_dir]
          else []
        let installEv : List Event := [.writeE (bundle_dir ++ ["install.sh"])]
        (ev0 ++ devStep.1 ++ simStep.1 ++ metaEv ++ readmeEv ++ installEv ++
           [.archiveE "gztar" (outputDir root ++ ["rvpnse-ios"]) bundle_dir,
            .rmtreeE bundle_dir],
         some (outputDir root ++ ["rvpnse-ios.tar.gz"]))

/-- Python `dict` assignment `results[k] = v`: update in place if the
key exists, append otherwise. -/
def dictInsert (m : List (String × Bool)) (k : String) (v : Bool) : List (String × Bool) :=
  if m.any (fun p => p.1 == k) then m.map (fun p => if p.1 = k then (k, v) else p)
  else m ++ [(k, v)]

/-- The per-target loop of `build()` (lines 563-575): look each name up
in the registry (a `KeyError` is impossible after validation but
modelled faithfully), build it, record the flag, accumulate successful
Android and iOS targets, and package successful desktop targets
immediately. -/
def build_loop (w : World) (ndk : Option FsPath) (root : FsPath) (mode : BuildMode) :
    List String → List (String × Bool) → List Target → List Target →
      List Event × Except String (List (String × Bool) × List Target × List Target)
  | [], res, ands, ioss => ([], .ok (res, ands, ioss))
  | n :: ns, res, ands, ioss =>
    match lookupTarget n with
    | none => ([], .error "KeyError")
    | some t =>
      let step := build_target w ndk root mode t
      match step.2 with
      | .error e => (step.1, .error e)
      | .ok succ =>
        let res2 := dictInsert res n succ
        let ands2 := if succ = true ∧ t.platform = Platform.android then ands ++ [t] else ands
        let ioss2 := if succ = true ∧ t.platform = Platform.ios then ioss ++ [t] else ioss
        let pkgEv := if succ = true ∧ t.platform ≠ Platform.android ∧ t.platform ≠ Platform.ios
          then (package_target w root mode t).1 else []
        let rest := build_loop w ndk root mode ns res2 ands2 ioss2
        (step.1 ++ pkgEv ++ rest.1, rest.2)

/-- The `rustup target add` calls of `_setup_rust_environment`. -/
def setupRustEvents : List Event :=
  TARGETS.map (fun p => Event.run ["rustup", "target", "add", p.2.rust_target])

/-- `rVPNSEBuilder.build`: check the build tool, clear and recreate the
output directory, reject the whole batch if any requested name is
unknown, run the per-target loop, then emit the aggregated Android and
iOS bundles.  Returns the event trace and the per-target result mapping
(or the propagated exception). -/
def build (w : World) (root : FsPath) (mode : BuildMode) (target_names : List String) :
    List Event × Except String (List (String × Bool)) :=
  if ¬ w.cargoAvailable then ([], .ok [])
  else
    let ndk := find_android_ndk w
    let cleanEv : List Event :=
      (if w.pathExists (outputDir root) then [.rmtreeE (outputDir root)] else []) ++
        [.mkdirE (outputDir root)]
    let invalid := target_names.filter (fun n => (lookupTarget n).isNone)
    if invalid ≠ [] then (setupRustEvents ++ cleanEv, .ok [])
    else
      let lp := build_loop w ndk root mode target_names [] [] []
      match lp.2 with
      | .error e => (setupRustEvents ++ cleanEv ++ lp.1, .error e)
      | .ok (res, ands, ioss) =>
        let aEv := if ands ≠ [] then (package_android_bundle w root mode ands).1 else []
        let iEv := if ioss ≠ [] then (package_ios_bundle w root mode ioss).1 else []
        (setupRustEvents ++ cleanEv ++ lp.1 ++ aEv ++ iEv, .ok res)

/-- The process exit status of `main()` for a resolved target list: `1`
when no targets were determined, `1` on an uncaught exception, else
`0 if success_count == len(results) else 1`. -/
def mainExit (w : World) (root : FsPath) (mode : BuildMode)
    (targets_to_build : List String) : Nat :=
  if targets_to_build = [] then 1
  else
    match (build w root mode targets_to_build).2 with
    | .error _ => 1
    | .ok results =>
      let success_count := (results.filter (fun p => p.2)).length
      if success_count = results.length then 0 else 1

theorem toNat_ofNat_valid (n : Nat) (h : n.isValidChar) : (Char.ofNat n).toNat = n := by
  simp only [Char.ofNat, h, dite_true, Char.ofNatAux, Char.toNat]
  rfl

theorem toUpper_eq (c : Char) :
    c.toUpper = if c.toNat ≥ 97 ∧ c.toNat ≤ 122 then Char.ofNat (c.toNat - 32) else c := rfl

theorem charStep_idem (c : Char) :
    dashToUnderscore (dashToUnderscore c.toUpper).toUpper = dashToUnderscore c.toUpper := by
  by_cases h : c.toNat ≥ 97 ∧ c.toNat ≤ 122
  · have hv : (c.toNat - 32).isValidChar := by left; omega
    have ht : c.toUpper.toNat = c.toNat - 32 := by
      rw [toUpper_eq, if_pos h]; exact toNat_ofNat_valid _ hv
    have hd : ('-').toNat = 45 := rfl
    have hne : c.toUpper ≠ '-' := by
      intro he
      rw [he, hd] at ht
      omega
    have h1 : dashToUnderscore c.toUpper = c.toUpper := by
      simp [dashToUnderscore, hne]
    rw [h1]
    have h2 : c.toUpper.toUpper = c.toUpper := by
      rw [toUpper_eq c.toUpper, if_neg]
      omega
    rw [h2, h1]
  · have h0 : c.toUpper = c := by rw [toUpper_eq, if_neg h]
    rw [h0]
    by_cases hc : c = '-'
    · subst hc
      decide
    · have h1 : dashToUnderscore c = c := by simp [dashToUnderscore, hc]
      rw [h1, h0, h1]

/-- C3: the environment-variable-name mangling (uppercase the triple,
replace `-` runs by `_`) is idempotent on every string, and over the
fixed `TARGETS` registry no two distinct compiler triples produce the
same mangled name. -/
theorem C3_mangle_idem_and_injective :
    (∀ s : String, mangle (mangle s) = mangle s) ∧
    (∀ p ∈ TARGETS, ∀ q ∈ TARGETS,
        mangle p.2.rust_target = mangle q.2.rust_target →
          p.2.rust_target = q.2.rust_target) := by
  constructor
  · intro s
    simp only [mangle, List.map_map]
    refine congrArg _ (List.map_congr_left ?_)
    intro c _
    exact charStep_idem c
  · decide

/-- Witness for C3 at concrete inputs. -/
theorem C3_mangle_witness :
    mangle (mangle "aarch64-apple-ios") = mangle "aarch64-apple-ios" ∧
    ("aarch64-apple-ios" : String) = "aarch64-apple-ios" :=
  ⟨C3_mangle_idem_and_injective.1 "aarch64-apple-ios",
   C3_mangle_idem_and_injective.2
     ("ios-arm64", ⟨"ios-arm64", "aarch64-apple-ios", .ios, "arm64", none, none⟩)
     (by decide)
     ("ios-arm64", ⟨"ios-arm64", "aarch64-apple-ios", .ios, "arm64", none, none⟩)
     (by decide) (by decide)⟩

/-- C8: the expected artifact filename depends only on the target's OS
family, taking exactly three shapes: `rvpnse.dll` for Windows,
`librvpnse.so` shared by Linux and Android, and `librvpnse.dylib`
shared by macOS and iOS. -/
theorem C8_library_name_by_family :
    (∀ t1 t2 : Target, t1.platform = t2.platform →
        get_library_name t1 = get_library_name t2) ∧
    (∀ t : Target,
      (t.platform = Platform.windows → get_library_name t = "rvpnse.dll") ∧
      ((t.platform = Platform.linux ∨ t.platform = Platform.android) →
          get_library_name t = "librvpnse.so") ∧
      ((t.platform = Platform.macos ∨ t.platform = Platform.ios) →
          get_library_name t = "librvpnse.dylib")) := by
  constructor
  · intro t1 t2 h
    simp only [get_library_name, h]
  · intro t
    refine ⟨fun h => ?_, fun h => ?_, fun h => ?_⟩
    · simp [get_library_name, h]
    · rcases h with h | h <;> simp [get_library_name, h]
    · rcases h with h | h <;> simp [get_library_name, h]

/-- C2: whenever `_build_target` returns a flag while the build tool
exits zero but the expected artifact file is missing at the per-triple,
per-mode path, the flag is failure; and a success flag is returned only
when the tool exits zero and the artifact exists. -/
theorem C2_success_requires_artifact (w : World) (ndk : Option FsPath) (root : FsPath)
    (mode : BuildMode) (t : Target) :
    (∀ b, (build_target w ndk root mode t).2 = .ok b →
        w.runOk (cargoCmd mode t.rust_target) = true →
        w.pathExists (libPath root mode t) = false → b = false) ∧
    ((build_target w ndk root mode t).2 = .ok true →
        w.runOk (cargoCmd mode t.rust_target) = true ∧
        w.pathExists (libPath root mode t) = true) := by
  unfold build_target
  constructor
  · intro b hb hrun hlib
    by_cases h1 : t.platform = Platform.android ∧ ndk = none
    · rw [if_pos h1] at hb
      exact (Except.ok.inj hb).symm
    · rw [if_neg h1] at hb
      rcases he : (if t.platform = Platform.android then
          (setup_android_environment w ndk t).map (fun _ => ()) else .ok ()) with e | u
      · rw [he] at hb; cases hb
      · rw [he] at hb
        simp only [hrun, if_true, hlib, if_false] at hb
        exact (Except.ok.inj hb).symm
  · intro hb
    by_cases h1 : t.platform = Platform.android ∧ ndk = none
    · rw [if_pos h1] at hb
      cases Except.ok.inj hb
    · rw [if_neg h1] at hb
      rcases he : (if t.platform = Platform.android then
          (setup_android_environment w ndk t).map (fun _ => ()) else .ok ()) with e | u
      · rw [he] at hb; cases hb
      · rw [he] at hb
        by_cases hrun : w.runOk (cargoCmd mode t.rust_target)
        · by_cases hlib : w.pathExists (libPath root mode t)
          · exact ⟨hrun, hlib⟩
          · simp only [hrun, if_true, hlib, if_false] at hb
            cases Except.ok.inj hb
        · simp only [hrun, if_false] at hb
          cases Except.ok.inj hb

/-- A concrete host on which everything exists and succeeds. -/
def wAll : World :=
  { pathExists := fun _ => true,
    runOk := fun _ => true,
    cargoAvailable := true,
    envNdkRoot := some ["ndk"],
    homeDir := ["home"],
    hostSystem := "linux" }

/-- A concrete host on which no path exists. -/
def wNone : World :=
  { pathExists := fun _ => false,
    runOk := fun _ => true,
    cargoAvailable := true,
    envNdkRoot := none,
    homeDir := ["home"],
    hostSystem := "linux" }

/-- The `linux-x64` registry entry. -/
def tLinux : Target := ⟨"linux-x64", "x86_64-unknown-linux-gnu", .linux, "x64", none, none⟩

/-- The `ios-arm64` registry entry. -/
def tIosArm64 : Target := ⟨"ios-arm64", "aarch64-apple-ios", .ios, "arm64", none, none⟩

/-- The `android-arm64` registry entry. -/
def tAndroidArm64 : Target :=
  ⟨"android-arm64", "aarch64-linux-android", .android, "arm64", some "arm64-v8a", some 21⟩

/-- Witness for C2 at a concrete input. -/
theorem C2_success_requires_artifact_witness :
    wAll.runOk (cargoCmd .release "x86_64-unknown-linux-gnu") = true ∧
    wAll.pathExists (libPath ["r"] .release tLinux) = true :=
  (C2_success_requires_artifact wAll none ["r"] .release tLinux).2 rfl

/-- C6: the NDK locator accepts the environment override whenever that
path exists, otherwise takes the first conventional location that
exists and contains `toolchains/llvm/prebuilt`, otherwise returns
`none`; and an absent NDK merely makes Android targets fail their build
(without any subprocess call) while leaving non-Android targets
entirely unaffected. -/
theorem C6_find_android_ndk_order (w : World) (p q : FsPath) (root : FsPath)
    (mode : BuildMode) (t : Target) :
    (w.envNdkRoot = some p → w.pathExists p = true → find_android_ndk w = some p) ∧
    ((w.envNdkRoot = none ∨ (w.envNdkRoot = some p ∧ w.pathExists p = false)) →
      find_android_ndk w =
        (possible_paths w.homeDir).find? (fun r =>
          w.pathExists r && w.pathExists (r ++ ["toolchains", "llvm", "prebuilt"]))) ∧
    ((w.envNdkRoot = none ∨ (w.envNdkRoot = some p ∧ w.pathExists p = false)) →
      (∀ r ∈ possible_paths w.homeDir,
        ¬(w.pathExists r = true ∧
          w.pathExists (r ++ ["toolchains", "llvm", "prebuilt"]) = true)) →
      find_android_ndk w = none) ∧
    (t.platform = Platform.android →
      (build_target w none root mode t).2 = .ok false ∧
      ∀ cmd, Event.run cmd ∉ (build_target w none root mode t).1) ∧
    (t.platform ≠ Platform.android →
      build_target w none root mode t = build_target w (some q) root mode t) := by
  refine ⟨?_, ?_, ?_, ?_, ?_⟩
  · intro he hp
    unfold find_android_ndk
    rw [he]
    simp [hp]
  · intro h
    unfold find_android_ndk
    rcases h with h | ⟨h, hp⟩
    · rw [h]
    · rw [h]
      simp [hp]
  · intro h hnone
    unfold find_android_ndk
    have hf : (possible_paths w.homeDir).find? (fun r =>
        w.pathExists r && w.pathExists (r ++ ["toolchains", "llvm", "prebuilt"])) = none := by
      rw [List.find?_eq_none]
      intro r hr
      have := hnone r hr
      intro hb
      rcases Bool.and_eq_true_iff.mp hb with ⟨h1, h2⟩
      exact this ⟨h1, h2⟩
    rcases h with h | ⟨h, hp⟩
    · rw [h, hf]
    · rw [h]
      simp [hp, hf]
  · intro ha
    constructor
    · simp [build_target, ha]
    · intro cmd
      by_cases hd : w.pathExists (buildDir root ++ [t.rust_target]) <;>
        simp [build_target, ha, hd]
  · intro hna
    simp [build_target, hna]

/-- Witness for C6 at concrete inputs. -/
theorem C6_find_android_ndk_witness :
    find_android_ndk wAll = some ["ndk"] :=
  (C6_find_android_ndk_order wAll ["ndk"] ["q"] ["r"] .release tLinux).1 rfl rfl

/-- Whether an event is an invocation of the underlying build tool
(`cargo build ...`). -/
def isCargoBuild : Event → Bool
  | .run ("cargo" :: "build" :: _) => true
  | _ => false

/-- The archive-creation event of the Android bundler. -/
def androidArchiveE (root : FsPath) : Event :=
  .archiveE "gztar" (outputDir root ++ ["rvpnse-android"]) (androidBundleDir root)

/-- Whether an event is a subprocess invocation. -/
def isRunEvent : Event → Bool
  | .run _ => true
  | _ => false

theorem iosGroups_eq (w : World) (root : FsPath) (mode : BuildMode) (ts : List Target) :
    iosGroups w root mode ts =
      ((ts.filter (fun t => w.pathExists (iosLibPath root mode t) &&
          t.rust_target == "aarch64-apple-ios")).map (fun t => (t, iosLibPath root mode t)),
       (ts.filter (fun t => w.pathExists (iosLibPath root mode t) &&
          !(t.rust_target == "aarch64-apple-ios"))).map
            (fun t => (t, iosLibPath root mode t))) := by
  induction ts with
  | nil => rfl
  | cons t ts ih =>
    simp only [iosGroups, ih]
    by_cases hp : w.pathExists (iosLibPath root mode t) <;>
      by_cases hr : t.rust_target = "aarch64-apple-ios" <;>
        simp [hp, hr, List.filter_cons]

theorem frameworkStep_copy_mem (w : World) (f : FsPath) (g : List (Target × FsPath))
    (s d : FsPath) :
    Event.copyE s d ∈ (frameworkStep w f g).1 ↔
      (∃ tg, g = [(tg, s)]) ∧ d = f ++ ["rVPNSE"] := by
  match g with
  | [] => simp [frameworkStep]
  | [g0] =>
    simp only [frameworkStep, List.mem_cons, List.mem_singleton, List.not_mem_nil, or_false]
    constructor
    · rintro (h | h)
      · cases h
      · cases h
        exact ⟨⟨g0.1, rfl⟩, rfl⟩
    · rintro ⟨⟨tg, hg⟩, hd⟩
      cases hg
      exact Or.inr (by rw [hd])
  | g1 :: g2 :: rest => simp [frameworkStep]

theorem frameworkStep_filter_run (w : World) (f : FsPath) (g : List (Target × FsPath)) :
    (frameworkStep w f g).1.filter isRunEvent =
      if 2 ≤ g.length then [Event.run (lipoCmd (f ++ ["rVPNSE"]) g)] else [] := by
  match g with
  | [] => simp [frameworkStep, isRunEvent]
  | [g0] => simp [frameworkStep, isRunEvent]
  | g1 :: g2 :: rest =>
    simp [frameworkStep, isRunEvent, List.filter_cons]

theorem frameworkMeta_copy_mem (w : World) (root f : FsPath) (s d : FsPath) :
    Event.copyE s d ∈ frameworkMetaEvents w root f → d = f ++ ["Headers"] := by
  unfold frameworkMetaEvents
  by_cases hh : w.pathExists (root ++ ["include", "rvpnse.h"]) <;> simp [hh]

theorem frameworkMeta_filter_run (w : World) (root f : FsPath) :
    (frameworkMetaEvents w root f).filter isRunEvent = [] := by
  unfold frameworkMetaEvents
  by_cases hh : w.pathExists (root ++ ["include", "rvpnse.h"]) <;>
    simp [hh, isRunEvent, List.filter_cons]

theorem mem_of_mem_ite_nil {c : Prop} [Decidable c] {l : List Event} {e : Event}
    (h : e ∈ if c then l else []) : e ∈ l := by
  split at h
  · exact h
  · exact absurd h (List.not_mem_nil e)

theorem devBin_ne_simBin (root : FsPath) :
    deviceFwDir root ++ ["rVPNSE"] ≠ simFwDir root ++ ["rVPNSE"] := by
  simp [deviceFwDir, simFwDir, iosBundleDir, outputDir]

theorem devBin_ne_devHeaders (root : FsPath) :
    deviceFwDir root ++ ["rVPNSE"] ≠ deviceFwDir root ++ ["Headers"] := by
  simp [deviceFwDir, iosBundleDir, outputDir]

theorem devBin_ne_simHeaders (root : FsPath) :
    deviceFwDir root ++ ["rVPNSE"] ≠ simFwDir root ++ ["Headers"] := by
  simp [deviceFwDir, simFwDir, iosBundleDir, outputDir]

theorem devBin_ne_bundleDir (root : FsPath) :
    deviceFwDir root ++ ["rVPNSE"] ≠ iosBundleDir root := by
  simp [deviceFwDir, iosBundleDir, outputDir]

theorem simBin_ne_devHeaders (root : FsPath) :
    simFwDir root ++ ["rVPNSE"] ≠ deviceFwDir root ++ ["Headers"] := by
  simp [deviceFwDir, simFwDir, iosBundleDir, outputDir]

theorem simBin_ne_simHeaders (root : FsPath) :
    simFwDir root ++ ["rVPNSE"] ≠ simFwDir root ++ ["Headers"] := by
  simp [simFwDir, iosBundleDir, outputDir]

theorem simBin_ne_bundleDir (root : FsPath) :
    simFwDir root ++ ["rVPNSE"] ≠ iosBundleDir root := by
  simp [simFwDir, iosBundleDir, outputDir]

theorem pib_none_case (w : World) (root : FsPath) (mode : BuildMode) (ts : List Target)
    (h0 : (iosGroups w root mode ts).1 = [] ∧ (iosGroups w root mode ts).2 = []) :
    package_ios_bundle w root mode ts = ([.mkdirE (iosBundleDir root)], none) := by
  simp [package_ios_bundle, h0.1, h0.2]

theorem pib_devFail_case (w : World) (root : FsPath) (mode : BuildMode) (ts : List Target)
    (h0 : ¬ ((iosGroups w root mode ts).1 = [] ∧ (iosGroups w root mode ts).2 = []))
    (hd : (frameworkStep w (deviceFwDir root) (iosGroups w root mode ts).1).2 = false) :
    package_ios_bundle w root mode ts =
      (Event.mkdirE (iosBundleDir root) ::
        (frameworkStep w (deviceFwDir root) (iosGroups w root mode ts).1).1, none) := by
  simp [package_ios_bundle, h0, hd]

theorem pib_simFail_case (w : World) (root : FsPath) (mode : BuildMode) (ts : List Target)
    (h0 : ¬ ((iosGroups w root mode ts).1 = [] ∧ (iosGroups w root mode ts).2 = []))
    (hd : (frameworkStep w (deviceFwDir root) (iosGroups w root mode ts).1).2 = true)
    (hs : (frameworkStep w (simFwDir root) (iosGroups w root mode ts).2).2 = false) :
    package_ios_bundle w root mode ts =
      (Event.mkdirE (iosBundleDir root) ::
        ((frameworkStep w (deviceFwDir root) (iosGroups w root mode ts).1).1 ++
          (frameworkStep w (simFwDir root) (iosGroups w root mode ts).2).1), none) := by
  simp [package_ios_bundle, h0, hd, hs]

theorem pib_ok_case (w : World) (root : FsPath) (mode : BuildMode) (ts : List Target)
    (h0 : ¬ ((iosGroups w root mode ts).1 = [] ∧ (iosGroups w root mode ts).2 = []))
    (hd : (frameworkStep w (deviceFwDir root) (iosGroups w root mode ts).1).2 = true)
    (hs : (frameworkStep w (simFwDir root) (iosGroups w root mode ts).2).2 = true) :
    package_ios_bundle w root mode ts =
      (Event.mkdirE (iosBundleDir root) ::
        ((frameworkStep w (deviceFwDir root) (iosGroups w root mode ts).1).1 ++
          ((frameworkStep w (simFwDir root) (iosGroups w root mode ts).2).1 ++
            (((if (iosGroups w root mode ts).1 ≠ [] then
                  frameworkMetaEvents w root (deviceFwDir root) else []) ++
               (if (iosGroups w root mode ts).2 ≠ [] then
                  frameworkMetaEvents w root (simFwDir root) else [])) ++
              ((if w.pathExists (root ++ ["README.md"]) then
                  [Event.copyE (root ++ ["README.md"]) (iosBundleDir root)] else []) ++
                (Event.writeE (iosBundleDir root ++ ["install.sh"]) ::
                  [Event.archiveE "gztar" (outputDir root ++ ["rvpnse-ios"]) (iosBundleDir root),
                   Event.rmtreeE (iosBundleDir root)]))))),
       some (outputDir root ++ ["rvpnse-ios.tar.gz"])) := by
  simp [package_ios_bundle, h0, hd, hs]

theorem pib_copy_cases (w : World) (root : FsPath) (mode : BuildMode) (ts : List Target)
    (s d : FsPath) (h : Event.copyE s d ∈ (package_ios_bundle w root mode ts).1) :
    Event.copyE s d ∈
        (frameworkStep w (deviceFwDir root) (iosGroups w root mode ts).1).1 ∨
    Event.copyE s d ∈
        (frameworkStep w (simFwDir root) (iosGroups w root mode ts).2).1 ∨
    d = deviceFwDir root ++ ["Headers"] ∨
    d = simFwDir root ++ ["Headers"] ∨
    d = iosBundleDir root := by
  by_cases h0 : (iosGroups w root mode ts).1 = [] ∧ (iosGroups w root mode ts).2 = []
  · rw [pib_none_case w root mode ts h0] at h
    simp at h
  · by_cases hd : (frameworkStep w (deviceFwDir root) (iosGroups w root mode ts).1).2 = true
    · by_cases hs : (frameworkStep w (simFwDir root) (iosGroups w root mode ts).2).2 = true
      · rw [pib_ok_case w root mode ts h0 hd hs] at h
        simp only [List.mem_cons, List.mem_append] at h
        rcases h with h | h | h | h | h | h
        · cases h
        · exact Or.inl h
        · exact Or.inr (Or.inl h)
        · rcases h with h | h
          · have := frameworkMeta_copy_mem w root (deviceFwDir root) s d
              (mem_of_mem_ite_nil h)
            exact Or.inr (Or.inr (Or.inl this))
          · have := frameworkMeta_copy_mem w root (simFwDir root) s d
              (mem_of_mem_ite_nil h)
            exact Or.inr (Or.inr (Or.inr (Or.inl this)))
        · have h2 := mem_of_mem_ite_nil h
          simp only [List.mem_singleton, Event.copyE.injEq] at h2
          exact Or.inr (Or.inr (Or.inr (Or.inr h2.2)))
        · simp at h
      · rw [pib_simFail_case w root mode ts h0 hd (Bool.not_eq_true _ ▸ hs)] at h
        simp only [List.mem_cons, List.mem_append] at h
        rcases h with h | h | h
        · cases h
        · exact Or.inl h
        · exact Or.inr (Or.inl h)
    · rw [pib_devFail_case w root mode ts h0 (Bool.not_eq_true _ ▸ hd)] at h
      simp only [List.mem_cons] at h
      rcases h with h | h
      · cases h
      · exact Or.inl h

/-- C4: the iOS bundler partitions the successfully built targets into
the device group (triple exactly `aarch64-apple-ios`) and the simulator
group (all other triples); a singleton group's binary is copied
directly, a larger group gets exactly one `lipo` merge over its paths
in order, a failing merge aborts the whole bundling step, and each
framework binary is produced exclusively from its own group's
libraries. -/
theorem C4_ios_partition_and_merge (w : World) (root : FsPath) (mode : BuildMode)
    (ts : List Target) :
    (iosGroups w root mode ts).1 =
      (ts.filter (fun t => w.pathExists (iosLibPath root mode t) &&
        t.rust_target == "aarch64-apple-ios")).map (fun t => (t, iosLibPath root mode t)) ∧
    (iosGroups w root mode ts).2 =
      (ts.filter (fun t => w.pathExists (iosLibPath root mode t) &&
        !(t.rust_target == "aarch64-apple-ios"))).map (fun t => (t, iosLibPath root mode t)) ∧
    (∀ d, (iosGroups w root mode ts).1 = [d] →
      Event.copyE d.2 (deviceFwDir root ++ ["rVPNSE"]) ∈
        (package_ios_bundle w root mode ts).1) ∧
    (∀ s, (iosGroups w root mode ts).2 = [s] →
      (frameworkStep w (deviceFwDir root) (iosGroups w root mode ts).1).2 = true →
      Event.copyE s.2 (simFwDir root ++ ["rVPNSE"]) ∈
        (package_ios_bundle w root mode ts).1) ∧
    ((package_ios_bundle w root mode ts).1.filter isRunEvent =
      (if 2 ≤ (iosGroups w root mode ts).1.length then
        [Event.run (lipoCmd (deviceFwDir root ++ ["rVPNSE"]) (iosGroups w root mode ts).1)]
      else []) ++
      (if (frameworkStep w (deviceFwDir root) (iosGroups w root mode ts).1).2 = true ∧
          2 ≤ (iosGroups w root mode ts).2.length then
        [Event.run (lipoCmd (simFwDir root ++ ["rVPNSE"]) (iosGroups w root mode ts).2)]
      else [])) ∧
    ((frameworkStep w (deviceFwDir root) (iosGroups w root mode ts).1).2 = false →
      (package_ios_bundle w root mode ts).2 = none) ∧
    ((frameworkStep w (simFwDir root) (iosGroups w root mode ts).2).2 = false →
      (package_ios_bundle w root mode ts).2 = none) ∧
    (∀ s, Event.copyE s (deviceFwDir root ++ ["rVPNSE"]) ∈
        (package_ios_bundle w root mode ts).1 →
      ∃ tg, (iosGroups w root mode ts).1 = [(tg, s)]) ∧
    (∀ s, Event.copyE s (simFwDir root ++ ["rVPNSE"]) ∈
        (package_ios_bundle w root mode ts).1 →
      ∃ tg, (iosGroups w root mode ts).2 = [(tg, s)]) := by
  have hgroups := iosGroups_eq w root mode ts
  refine ⟨by rw [hgroups], by rw [hgroups], ?_, ?_, ?_, ?_, ?_, ?_, ?_⟩
  case _ => -- singleton device copy
    intro d hd
    have h0 : ¬ ((iosGroups w root mode ts).1 = [] ∧ (iosGroups w root mode ts).2 = []) := by
      rw [hd]; rintro ⟨h, -⟩; cases h
    have hdev : (frameworkStep w (deviceFwDir root) (iosGroups w root mode ts).1).2 = true := by
      rw [hd]; rfl
    have hmem : Event.copyE d.2 (deviceFwDir root ++ ["rVPNSE"]) ∈
        (frameworkStep w (deviceFwDir root) (iosGroups w root mode ts).1).1 := by
      rw [frameworkStep_copy_mem]
      exact ⟨⟨d.1, by rw [hd]⟩, rfl⟩
    by_cases hs : (frameworkStep w (simFwDir root) (iosGroups w root mode ts).2).2 = true
    · rw [pib_ok_case w root mode ts h0 hdev hs]
      simp only [List.mem_cons, List.mem_append]
      exact Or.inr (Or.inl hmem)
    · rw [pib_simFail_case w root mode ts h0 hdev (Bool.not_eq_true _ ▸ hs)]
      simp only [List.mem_cons, List.mem_append]
      exact Or.inr (Or.inl hmem)
  case _ => -- singleton simulator copy
    intro s hsng hdev
    have h0 : ¬ ((iosGroups w root mode ts).1 = [] ∧ (iosGroups w root mode ts).2 = []) := by
      rw [hsng]; rintro ⟨-, h⟩; cases h
    have hsim : (frameworkStep w (simFwDir root) (iosGroups w root mode ts).2).2 = true := by
      rw [hsng]; rfl
    have hmem : Event.copyE s.2 (simFwDir root ++ ["rVPNSE"]) ∈
        (frameworkStep w (simFwDir root) (iosGroups w root mode ts).2).1 := by
      rw [frameworkStep_copy_mem]
      exact ⟨⟨s.1, by rw [hsng]⟩, rfl⟩
    rw [pib_ok_case w root mode ts h0 hdev hsim]
    simp only [List.mem_cons, List.mem_append]
    exact Or.inr (Or.inr (Or.inl hmem))
  case _ => -- run events are exactly the per-group lipo merges
    by_cases h0 : (iosGroups w root mode ts).1 = [] ∧ (iosGroups w root mode ts).2 = []
    · rw [pib_none_case w root mode ts h0, h0.1, h0.2]
      simp [isRunEvent, frameworkStep]
    · by_cases hd : (frameworkStep w (deviceFwDir root) (iosGroups w root mode ts).1).2 = true
      · by_cases hs : (frameworkStep w (simFwDir root) (iosGroups w root mode ts).2).2 = true
        · rw [pib_ok_case w root mode ts h0 hd hs]
          rw [List.filter_cons]
          simp only [List.filter_append]
          rw [frameworkStep_filter_run, frameworkStep_filter_run]
          have hm1 : List.filter isRunEvent
              (if (iosGroups w root mode ts).1 ≠ [] then
                frameworkMetaEvents w root (deviceFwDir root) else []) = [] := by
            split
            · exact frameworkMeta_filter_run w root (deviceFwDir root)
            · rfl
          have hm2 : List.filter isRunEvent
              (if (iosGroups w root mode ts).2 ≠ [] then
                frameworkMetaEvents w root (simFwDir root) else []) = [] := by
            split
            · exact frameworkMeta_filter_run w root (simFwDir root)
            · rfl
          have hr : List.filter isRunEvent
              (if w.pathExists (root ++ ["README.md"]) then
                [Event.copyE (root ++ ["README.md"]) (iosBundleDir root)] else []) = [] := by
            split <;> simp [isRunEvent]
          rw [hm1, hm2, hr]
          simp [isRunEvent, hd]
        · rw [pib_simFail_case w root mode ts h0 hd (Bool.not_eq_true _ ▸ hs)]
          rw [List.filter_cons]
          simp only [List.filter_append]
          rw [frameworkStep_filter_run, frameworkStep_filter_run]
          simp [isRunEvent, hd]
      · rw [pib_devFail_case w root mode ts h0 (Bool.not_eq_true _ ▸ hd)]
        rw [List.filter_cons]
        rw [frameworkStep_filter_run]
        have hd2 : ¬ ((frameworkStep w (deviceFwDir root) (iosGroups w root mode ts).1).2 = true ∧
            2 ≤ (iosGroups w root mode ts).2.length) := by
          rintro ⟨h, -⟩; exact hd h
        simp [isRunEvent, hd2]
  case _ => -- device merge failure aborts
    intro hd
    have h0 : ¬ ((iosGroups w root mode ts).1 = [] ∧ (iosGroups w root mode ts).2 = []) := by
      rintro ⟨h1, -⟩
      rw [h1] at hd
      cases hd
    rw [pib_devFail_case w root mode ts h0 hd]
  case _ => -- simulator merge failure aborts
    intro hs
    have h0 : ¬ ((iosGroups w root mode ts).1 = [] ∧ (iosGroups w root mode ts).2 = []) := by
      rintro ⟨-, h2⟩
      rw [h2] at hs
      cases hs
    by_cases hd : (frameworkStep w (deviceFwDir root) (iosGroups w root mode ts).1).2 = true
    · rw [pib_simFail_case w root mode ts h0 hd hs]
    · rw [pib_devFail_case w root mode ts h0 (Bool.not_eq_true _ ▸ hd)]
  case _ => -- device binary provenance
    intro s hmem
    rcases pib_copy_cases w root mode ts s _ hmem with h | h | h | h | h
    · exact ((frameworkStep_copy_mem w _ _ s _).mp h).1
    · exact absurd ((frameworkStep_copy_mem w _ _ s _).mp h).2 (devBin_ne_simBin root)
    · exact absurd h (devBin_ne_devHeaders root)
    · exact absurd h (devBin_ne_simHeaders root)
    · exact absurd h (devBin_ne_bundleDir root)
  case _ => -- simulator binary provenance
    intro s hmem
    rcases pib_copy_cases w root mode ts s _ hmem with h | h | h | h | h
    · exact absurd ((frameworkStep_copy_mem w _ _ s _).mp h).2
        (fun he => devBin_ne_simBin root he.symm)
    · exact ((frameworkStep_copy_mem w _ _ s _).mp h).1
    · exact absurd h (simBin_ne_devHeaders root)
    · exact absurd h (simBin_ne_simHeaders root)
    · exact absurd h (simBin_ne_bundleDir root)

/-- Witness for C4 at a concrete input. -/
theorem C4_ios_partition_witness :
    Event.copyE (iosLibPath ["r"] .release tIosArm64) (deviceFwDir ["r"] ++ ["rVPNSE"]) ∈
      (package_ios_bundle wAll ["r"] .release [tIosArm64]).1 :=
  (C4_ios_partition_and_merge wAll ["r"] .release [tIosArm64]).2.2.1
    (tIosArm64, iosLibPath ["r"] .release tIosArm64) (by decide)

theorem build_target_events_cases (w : World) (ndk : Option FsPath) (root : FsPath)
    (mode : BuildMode) (t : Target) :
    (build_target w ndk root mode t).1 =
        (if w.pathExists (buildDir root ++ [t.rust_target]) then
          [Event.rmtreeE (buildDir root ++ [t.rust_target])] else []) ∨
    (build_target w ndk root mode t).1 =
        (if w.pathExists (buildDir root ++ [t.rust_target]) then
          [Event.rmtreeE (buildDir root ++ [t.rust_target])] else []) ++
          [Event.run (cargoCmd mode t.rust_target)] := by
  unfold build_target
  by_cases h1 : t.platform = Platform.android ∧ ndk = none
  · rw [if_pos h1]
    exact Or.inl rfl
  · rw [if_neg h1]
    rcases henv : (if t.platform = Platform.android then
        (setup_android_environment w ndk t).map (fun _ => ()) else .ok ()) with e | u
    · exact Or.inl rfl
    · by_cases hrun : w.runOk (cargoCmd mode t.rust_target) = true
      · right
        rw [if_pos hrun]
        split <;> split <;> rfl
      · right
        rw [if_neg hrun]

theorem build_target_no_archive (w : World) (ndk : Option FsPath) (root : FsPath)
    (mode : BuildMode) (t : Target) (fmt : String) (b d : FsPath) :
    Event.archiveE fmt b d ∉ (build_target w ndk root mode t).1 := by
  intro hmem
  rcases build_target_events_cases w ndk root mode t with h | h <;> rw [h] at hmem <;>
    revert hmem <;> split <;> simp

theorem build_target_no_copy (w : World) (ndk : Option FsPath) (root : FsPath)
    (mode : BuildMode) (t : Target) (s d : FsPath) :
    Event.copyE s d ∉ (build_target w ndk root mode t).1 := by
  intro hmem
  rcases build_target_events_cases w ndk root mode t with h | h <;> rw [h] at hmem <;>
    revert hmem <;> split <;> simp

theorem build_target_ok_true (w : World) (ndk : Option FsPath) (root : FsPath)
    (mode : BuildMode) (t : Target)
    (hb : (build_target w ndk root mode t).2 = .ok true) :
    w.pathExists (libPath root mode t) = true := by
  unfold build_target at hb
  by_cases h1 : t.platform = Platform.android ∧ ndk = none
  · rw [if_pos h1] at hb
    cases Except.ok.inj hb
  · rw [if_neg h1] at hb
    rcases henv : (if t.platform = Platform.android then
        (setup_android_environment w ndk t).map (fun _ => ()) else .ok ()) with e | u
    · rw [henv] at hb; cases hb
    · rw [henv] at hb
      by_cases hrun : w.runOk (cargoCmd mode t.rust_target) = true
      · by_cases hlib : w.pathExists (libPath root mode t) = true
        · exact hlib
        · simp only [hrun, if_true, hlib, if_false] at hb
          cases Except.ok.inj hb
      · simp only [hrun, if_false] at hb
        cases Except.ok.inj hb

theorem mem_dictInsert (m : List (String × Bool)) (k : String) (v : Bool) (n : String)
    (h : (n, true) ∈ dictInsert m k v) :
    (n, true) ∈ m ∨ (n = k ∧ v = true) := by
  unfold dictInsert at h
  split at h
  · rcases List.mem_map.mp h with ⟨p, hp, he⟩
    by_cases hk : p.1 = k
    · rw [if_pos hk] at he
      right
      exact ⟨(Prod.mk.injEq _ _ _ _ ▸ he).1.symm, (Prod.mk.injEq _ _ _ _ ▸ he).2⟩
    · rw [if_neg hk] at he
      left
      exact he ▸ hp
  · rcases List.mem_append.mp h with h | h
    · left; exact h
    · right
      have := List.mem_singleton.mp h
      exact ⟨(Prod.mk.injEq _ _ _ _ ▸ this).1, (Prod.mk.injEq _ _ _ _ ▸ this).2.symm⟩

theorem lookupTarget_mem (n : String) (t : Target) (h : lookupTarget n = some t) :
    (n, t) ∈ TARGETS := by
  unfold lookupTarget at h
  rcases hfind : TARGETS.find? (fun p => p.1 = n) with _ | p
  · rw [hfind] at h; cases h
  · rw [hfind] at h
    have hp2 : p.2 = t := Option.some.inj h
    have hmem := List.mem_of_find?_eq_some hfind
    have hp1 : p.1 = n := by
      have hfs := List.find?_some hfind
      simpa using hfs
    rw [← hp1, ← hp2]
    exact hmem

theorem targets_name_ne_android :
    ∀ p ∈ TARGETS, ¬ ("rvpnse-" ++ p.2.name = "rvpnse-android") := by decide

theorem package_target_no_android_archive (w : World) (root : FsPath) (mode : BuildMode)
    (t : Target) (hname : ¬ ("rvpnse-" ++ t.name = "rvpnse-android")) :
    androidArchiveE root ∉ (package_target w root mode t).1 := by
  intro hmem
  unfold package_target at hmem
  by_cases hl : w.pathExists (libPath root mode t) = true
  · rw [if_neg (by simp [hl])] at hmem
    by_cases hh : w.pathExists (root ++ ["include", "rvpnse.h"]) = true <;>
      by_cases hr : w.pathExists (root ++ ["README.md"]) = true <;>
        by_cases hw : t.platform = Platform.windows <;>
          simp [hh, hr, hw, androidArchiveE, androidBundleDir, outputDir] at hmem <;>
            exact hname hmem.symm
  · rw [if_pos (by simp [hl])] at hmem
    cases hmem

theorem package_target_archive_mem (w : World) (root : FsPath) (mode : BuildMode)
    (t : Target) (hl : w.pathExists (libPath root mode t) = true) :
    Event.archiveE (if t.platform = Platform.windows then "zip" else "gztar")
      (outputDir root ++ ["rvpnse-" ++ t.name]) (outputDir root ++ ["rvpnse-" ++ t.name]) ∈
      (package_target w root mode t).1 := by
  unfold package_target
  rw [if_neg (by simp [hl])]
  by_cases hh : w.pathExists (root ++ ["include", "rvpnse.h"]) = true <;>
    by_cases hr : w.pathExists (root ++ ["README.md"]) = true <;>
      by_cases hw : t.platform = Platform.windows <;>
        simp [hh, hr, hw]

theorem package_android_archive_count (w : World) (root : FsPath) (mode : BuildMode)
    (ts : List Target) :
    (package_android_bundle w root mode ts).1.count (androidArchiveE root) = 1 := by
  unfold package_android_bundle
  simp only [List.count_append]
  have h0 : ([Event.mkdirE (androidBundleDir root ++ ["jniLibs"])] : List Event).count
      (androidArchiveE root) = 0 := by
    rw [List.count_eq_zero]
    simp [androidArchiveE]
  have h1 : (ts.flatMap (fun t =>
      if w.pathExists (buildDir root ++ [t.rust_target, mode.value, "librvpnse.so"]) = true then
        ([Event.mkdirE (androidBundleDir root ++ ["jniLibs"] ++ [t.android_arch.getD "None"]),
          Event.copyE (buildDir root ++ [t.rust_target, mode.value, "librvpnse.so"])
            (androidBundleDir root ++ ["jniLibs"] ++ [t.android_arch.getD "None"] ++
              ["librvpnse.so"])] : List Event)
      else [])).count (androidArchiveE root) = 0 := by
    rw [List.count_eq_zero]
    intro hmem
    rcases List.mem_flatMap.mp hmem with ⟨t, _, hin⟩
    by_cases hp : w.pathExists (buildDir root ++ [t.rust_target, mode.value, "librvpnse.so"]) =
        true <;>
      simp [hp, androidArchiveE] at hin
  have h2 : ((if w.pathExists (root ++ ["include", "rvpnse.h"]) then
      [Event.copyE (root ++ ["include", "rvpnse.h"]) (androidBundleDir root)]
    else []) : List Event).count (androidArchiveE root) = 0 := by
    rw [List.count_eq_zero]
    split <;> simp [androidArchiveE]
  have h3 : ((if w.pathExists (root ++ ["README.md"]) then
      [Event.copyE (root ++ ["README.md"]) (androidBundleDir root)]
    else []) : List Event).count (androidArchiveE root) = 0 := by
    rw [List.count_eq_zero]
    split <;> simp [androidArchiveE]
  have h4 : ([Event.writeE (androidBundleDir root ++ ["install.sh"])] : List Event).count
      (androidArchiveE root) = 0 := by
    rw [List.count_eq_zero]
    simp [androidArchiveE]
  have h5 : ([Event.archiveE "gztar" (outputDir root ++ ["rvpnse-android"])
      (androidBundleDir root), Event.rmtreeE (androidBundleDir root)] : List Event).count
      (androidArchiveE root) = 1 := by
    simp [List.count_cons, androidArchiveE]
  omega

theorem frameworkStep_no_archive (w : World) (f : FsPath) (g : List (Target × FsPath))
    (fmt : String) (b d : FsPath) :
    Event.archiveE fmt b d ∉ (frameworkStep w f g).1 := by
  match g with
  | [] => simp [frameworkStep]
  | [g0] => simp [frameworkStep]
  | g1 :: g2 :: rest => simp [frameworkStep]

theorem frameworkMeta_no_archive (w : World) (root f : FsPath) (fmt : String) (b d : FsPath) :
    Event.archiveE fmt b d ∉ frameworkMetaEvents w root f := by
  unfold frameworkMetaEvents
  by_cases hh : w.pathExists (root ++ ["include", "rvpnse.h"]) = true <;> simp [hh]

theorem pib_no_android_archive (w : World) (root : FsPath) (mode : BuildMode)
    (ts : List Target) :
    androidArchiveE root ∉ (package_ios_bundle w root mode ts).1 := by
  intro hmem
  have harch : ∀ (l : List Event), androidArchiveE root ∈ l →
      (∃ fmt b d, Event.archiveE fmt b d ∈ l ∧ Event.archiveE fmt b d = androidArchiveE root) :=
    fun l h => ⟨"gztar", outputDir root ++ ["rvpnse-android"], androidBundleDir root, h, rfl⟩
  by_cases h0 : (iosGroups w root mode ts).1 = [] ∧ (iosGroups w root mode ts).2 = []
  · rw [pib_none_case w root mode ts h0] at hmem
    simp [androidArchiveE] at hmem
  · by_cases hd : (frameworkStep w (deviceFwDir root) (iosGroups w root mode ts).1).2 = true
    · by_cases hs : (frameworkStep w (simFwDir root) (iosGroups w root mode ts).2).2 = true
      · rw [pib_ok_case w root mode ts h0 hd hs] at hmem
        simp only [List.mem_cons, List.mem_append] at hmem
        rcases hmem with h | h | h | h | h | h
        · simp [androidArchiveE] at h
        · exact frameworkStep_no_archive w _ _ _ _ _ h
        · exact frameworkStep_no_archive w _ _ _ _ _ h
        · rcases h with h | h
          · exact frameworkMeta_no_archive w root _ _ _ _ (mem_of_mem_ite_nil h)
          · exact frameworkMeta_no_archive w root _ _ _ _ (mem_of_mem_ite_nil h)
        · have h2 := mem_of_mem_ite_nil h
          simp [androidArchiveE] at h2
        · simp [androidArchiveE, androidBundleDir, iosBundleDir, outputDir] at h
      · rw [pib_simFail_case w root mode ts h0 hd (Bool.not_eq_true _ ▸ hs)] at hmem
        simp only [List.mem_cons, List.mem_append] at hmem
        rcases hmem with h | h | h
        · simp [androidArchiveE] at h
        · exact frameworkStep_no_archive w _ _ _ _ _ h
        · exact frameworkStep_no_archive w _ _ _ _ _ h
    · rw [pib_devFail_case w root mode ts h0 (Bool.not_eq_true _ ▸ hd)] at hmem
      simp only [List.mem_cons] at hmem
      rcases hmem with h | h
      · simp [androidArchiveE] at h
      · exact frameworkStep_no_archive w _ _ _ _ _ h

theorem frameworkStep_run_mem (w : World) (f : FsPath) (g : List (Target × FsPath))
    (c : List String) (h : Event.run c ∈ (frameworkStep w f g).1) :
    c = lipoCmd (f ++ ["rVPNSE"]) g := by
  match g with
  | [] => simp [frameworkStep] at h
  | [g0] => simp [frameworkStep] at h
  | g1 :: g2 :: rest =>
    simp [frameworkStep] at h
    exact h

theorem frameworkMeta_no_run (w : World) (root f : FsPath) (c : List String) :
    Event.run c ∉ frameworkMetaEvents w root f := by
  unfold frameworkMetaEvents
  by_cases hh : w.pathExists (root ++ ["include", "rvpnse.h"]) = true <;> simp [hh]

theorem package_android_countP_cargo (w : World) (root : FsPath) (mode : BuildMode)
    (ts : List Target) :
    (package_android_bundle w root mode ts).1.countP isCargoBuild = 0 := by
  rw [List.countP_eq_zero]
  intro e he
  unfold package_android_bundle at he
  simp only [List.mem_append] at he
  rcases he with ((((h | h) | h) | h) | h) | h
  · simp only [List.mem_singleton] at h
    rw [h]; simp [isCargoBuild]
  · rcases List.mem_flatMap.mp h with ⟨t, _, hin⟩
    by_cases hp : w.pathExists (buildDir root ++ [t.rust_target, mode.value, "librvpnse.so"]) =
        true <;> simp [hp] at hin
    rcases hin with h2 | h2 <;> rw [h2] <;> simp [isCargoBuild]
  · have h2 := mem_of_mem_ite_nil h
    simp only [List.mem_singleton] at h2
    rw [h2]; simp [isCargoBuild]
  · have h2 := mem_of_mem_ite_nil h
    simp only [List.mem_singleton] at h2
    rw [h2]; simp [isCargoBuild]
  · simp only [List.mem_singleton] at h
    rw [h]; simp [isCargoBuild]
  · simp only [List.mem_cons, List.mem_singleton, List.not_mem_nil, or_false] at h
    rcases h with h | h <;> rw [h] <;> simp [isCargoBuild]

theorem pib_run_lipo (w : World) (root : FsPath) (mode : BuildMode) (ts : List Target)
    (c : List String) (h : Event.run c ∈ (package_ios_bundle w root mode ts).1) :
    c = lipoCmd (deviceFwDir root ++ ["rVPNSE"]) (iosGroups w root mode ts).1 ∨
    c = lipoCmd (simFwDir root ++ ["rVPNSE"]) (iosGroups w root mode ts).2 := by
  by_cases h0 : (iosGroups w root mode ts).1 = [] ∧ (iosGroups w root mode ts).2 = []
  · rw [pib_none_case w root mode ts h0] at h
    simp at h
  · by_cases hd : (frameworkStep w (deviceFwDir root) (iosGroups w root mode ts).1).2 = true
    · by_cases hs : (frameworkStep w (simFwDir root) (iosGroups w root mode ts).2).2 = true
      · rw [pib_ok_case w root mode ts h0 hd hs] at h
        simp only [List.mem_cons, List.mem_append] at h
        rcases h with h | h | h | h | h | h
        · cases h
        · exact Or.inl (frameworkStep_run_mem w _ _ c h)
        · exact Or.inr (frameworkStep_run_mem w _ _ c h)
        · rcases h with h | h
          · exact absurd (mem_of_mem_ite_nil h) (frameworkMeta_no_run w root _ c)
          · exact absurd (mem_of_mem_ite_nil h) (frameworkMeta_no_run w root _ c)
        · have h2 := mem_of_mem_ite_nil h
          simp at h2
        · simp at h
      · rw [pib_simFail_case w root mode ts h0 hd (Bool.not_eq_true _ ▸ hs)] at h
        simp only [List.mem_cons, List.mem_append] at h
        rcases h with h | h | h
        · cases h
        · exact Or.inl (frameworkStep_run_mem w _ _ c h)
        · exact Or.inr (frameworkStep_run_mem w _ _ c h)
    · rw [pib_devFail_case w root mode ts h0 (Bool.not_eq_true _ ▸ hd)] at h
      simp only [List.mem_cons] at h
      rcases h with h | h
      · cases h
      · exact Or.inl (frameworkStep_run_mem w _ _ c h)

theorem isCargoBuild_lipo (out : FsPath) (g : List (Target × FsPath)) :
    isCargoBuild (Event.run (lipoCmd out g)) = false := rfl

theorem pib_countP_cargo (w : World) (root : FsPath) (mode : BuildMode) (ts : List Target) :
    (package_ios_bundle w root mode ts).1.countP isCargoBuild = 0 := by
  rw [List.countP_eq_zero]
  intro e he
  cases e with
  | run c =>
    rcases pib_run_lipo w root mode ts c he with h | h <;> rw [h] <;>
      simp [isCargoBuild_lipo]
  | rmtreeE p => simp [isCargoBuild]
  | mkdirE p => simp [isCargoBuild]
  | copyE s d => simp [isCargoBuild]
  | writeE p => simp [isCargoBuild]
  | archiveE fmt b d => simp [isCargoBuild]

theorem build_loop_no_android_archive (w : World) (ndk : Option FsPath) (root : FsPath)
    (mode : BuildMode) (names : List String) :
    ∀ res ands ioss,
      androidArchiveE root ∉ (build_loop w ndk root mode names res ands ioss).1 := by
  induction names with
  | nil =>
    intro res ands ioss hmem
    cases hmem
  | cons n ns ih =>
    intro res ands ioss hmem
    rcases hl : lookupTarget n with _ | t
    · simp only [build_loop, hl] at hmem
      cases hmem
    · rcases hstep : (build_target w ndk root mode t).2 with e | succ
      · simp only [build_loop, hl, hstep] at hmem
        exact build_target_no_archive w ndk root mode t _ _ _ hmem
      · simp only [build_loop, hl, hstep, List.mem_append] at hmem
        rcases hmem with (h | h) | h
        · exact build_target_no_archive w ndk root mode t _ _ _ h
        · have h2 := mem_of_mem_ite_nil h
          have hname := targets_name_ne_android (n, t) (lookupTarget_mem n t hl)
          exact package_target_no_android_archive w root mode t hname h2
        · exact ih _ _ _ h

theorem build_loop_desktop_archive (w : World) (ndk : Option FsPath) (root : FsPath)
    (mode : BuildMode) (names : List String) :
    ∀ res0 ands0 ioss0 res ands ioss n t,
      (build_loop w ndk root mode names res0 ands0 ioss0).2 = .ok (res, ands, ioss) →
      (n, true) ∈ res → lookupTarget n = some t →
      t.platform ≠ Platform.android → t.platform ≠ Platform.ios →
      (n, true) ∈ res0 ∨
        Event.archiveE (if t.platform = Platform.windows then "zip" else "gztar")
          (outputDir root ++ ["rvpnse-" ++ t.name]) (outputDir root ++ ["rvpnse-" ++ t.name]) ∈
          (build_loop w ndk root mode names res0 ands0 ioss0).1 := by
  induction names with
  | nil =>
    intro res0 ands0 ioss0 res ands ioss n t hloop hmem hlook hna hni
    left
    have : res = res0 := (Prod.mk.injEq _ _ _ _ ▸ (Except.ok.inj hloop)).1.symm
    exact this ▸ hmem
  | cons m ns ih =>
    intro res0 ands0 ioss0 res ands ioss n t hloop hmem hlook hna hni
    rcases hl : lookupTarget m with _ | t'
    · simp only [build_loop, hl] at hloop
      cases hloop
    · rcases hstep : (build_target w ndk root mode t').2 with e | succ
      · simp only [build_loop, hl, hstep] at hloop
        cases hloop
      · simp only [build_loop, hl, hstep] at hloop ⊢
        rcases ih (dictInsert res0 m succ)
            (if succ = true ∧ t'.platform = Platform.android then ands0 ++ [t'] else ands0)
            (if succ = true ∧ t'.platform = Platform.ios then ioss0 ++ [t'] else ioss0)
            res ands ioss n t hloop hmem hlook hna hni with hres0 | harch
        · rcases mem_dictInsert _ _ _ _ hres0 with hr | ⟨hnm, hsucc⟩
          · exact Or.inl hr
          · right
            have ht' : t' = t := by
              rw [hnm] at hlook
              rw [hl] at hlook
              exact Option.some.inj hlook
            have hcond : succ = true ∧ t'.platform ≠ Platform.android ∧
                t'.platform ≠ Platform.ios := ⟨hsucc, ht' ▸ hna, ht' ▸ hni⟩
            have hlib : w.pathExists (libPath root mode t') = true :=
              build_target_ok_true w ndk root mode t' (hsucc ▸ hstep)
            have hin : Event.archiveE (if t.platform = Platform.windows then "zip" else "gztar")
                (outputDir root ++ ["rvpnse-" ++ t.name])
                (outputDir root ++ ["rvpnse-" ++ t.name]) ∈ (package_target w root mode t).1 :=
              package_target_archive_mem w root mode t (ht' ▸ hlib)
            refine List.mem_append.mpr (Or.inl (List.mem_append.mpr (Or.inr ?_)))
            rw [if_pos hcond, ht']
            exact hin
        · right
          exact List.mem_append.mpr (Or.inr harch)

theorem setup_no_archive (root : FsPath) : androidArchiveE root ∉ setupRustEvents := by
  intro h
  rcases List.mem_map.mp h with ⟨p, _, he⟩
  exact Event.noConfusion he

theorem clean_no_archive (w : World) (root : FsPath) :
    androidArchiveE root ∉
      ((if w.pathExists (outputDir root) then [Event.rmtreeE (outputDir root)] else []) ++
        [Event.mkdirE (outputDir root)]) := by
  intro h
  rcases List.mem_append.mp h with h | h
  · have h2 := mem_of_mem_ite_nil h
    simp [androidArchiveE] at h2
  · simp [androidArchiveE] at h

/-- C7: every run produces at most one Android-bundle archive however
many Android targets were requested; the trace splits into a prefix
holding every `cargo build` invocation and a suffix holding any
Android-bundle archive (the bundle is emitted only after the per-target
loop); and each successful desktop target gets its own individual
archive inside the loop. -/
theorem C7_single_android_bundle (w : World) (root : FsPath) (mode : BuildMode)
    (names : List String) :
    (build w root mode names).1.count (androidArchiveE root) ≤ 1 ∧
    (∃ l1 l2, (build w root mode names).1 = l1 ++ l2 ∧
      l1.count (androidArchiveE root) = 0 ∧
      l2.countP isCargoBuild = 0) ∧
    (∀ res n t, (build w root mode names).2 = .ok res → (n, true) ∈ res →
      lookupTarget n = some t →
      t.platform ≠ Platform.android → t.platform ≠ Platform.ios →
      Event.archiveE (if t.platform = Platform.windows then "zip" else "gztar")
        (outputDir root ++ ["rvpnse-" ++ t.name]) (outputDir root ++ ["rvpnse-" ++ t.name]) ∈
        (build w root mode names).1) := by
  unfold build
  by_cases hc : w.cargoAvailable = true
  · rw [if_neg (fun hcon => hcon hc)]
    by_cases hinv : names.filter (fun n => (lookupTarget n).isNone) ≠ []
    · rw [if_pos hinv]
      have hcnt : (setupRustEvents ++
          ((if w.pathExists (outputDir root) then [Event.rmtreeE (outputDir root)] else []) ++
            [Event.mkdirE (outputDir root)])).count (androidArchiveE root) = 0 :=
        List.count_eq_zero.mpr (fun hmem => by
          rcases List.mem_append.mp hmem with h | h
          · exact setup_no_archive root h
          · exact clean_no_archive w root h)
      refine ⟨by rw [hcnt]; exact Nat.zero_le 1,
        ⟨_, [], (List.append_nil _).symm, hcnt, rfl⟩, ?_⟩
      intro res n t hres hmem _ _ _
      have : ([] : List (String × Bool)) = res := Except.ok.inj hres
      rw [← this] at hmem
      cases hmem
    · rw [if_neg hinv]
      have h2 : (setupRustEvents.count (androidArchiveE root)) = 0 :=
        List.count_eq_zero.mpr (setup_no_archive root)
      have h3 : ((if w.pathExists (outputDir root) then
          [Event.rmtreeE (outputDir root)] else []) : List Event).count
          (androidArchiveE root) = 0 := by
        rw [List.count_eq_zero]
        intro hmem
        have h4 := mem_of_mem_ite_nil hmem
        simp [androidArchiveE] at h4
      have h5 : ([Event.mkdirE (outputDir root)] : List Event).count
          (androidArchiveE root) = 0 := by
        rw [List.count_eq_zero]
        simp [androidArchiveE]
      have h6 : (build_loop w (find_android_ndk w) root mode names [] [] []).1.count
          (androidArchiveE root) = 0 :=
        List.count_eq_zero.mpr (build_loop_no_android_archive w _ root mode names [] [] [])
      rcases hlp : (build_loop w (find_android_ndk w) root mode names [] [] []).2 with e | r
      · simp only [hlp]
        refine ⟨?_, ⟨_, [], (List.append_nil _).symm, ?_, rfl⟩, ?_⟩
        · simp only [List.count_append]
          omega
        · simp only [List.count_append]
          omega
        · intro res n t hres hmem _ _ _
          cases hres
      · rcases r with ⟨res, ands, ioss⟩
        simp only [hlp]
        have haEv : ((if ands ≠ [] then (package_android_bundle w root mode ands).1
            else []) : List Event).count (androidArchiveE root) ≤ 1 := by
          split
          · rw [package_android_archive_count]
          · simp
        have hiEv : ((if ioss ≠ [] then (package_ios_bundle w root mode ioss).1
            else []) : List Event).count (androidArchiveE root) = 0 := by
          rw [List.count_eq_zero]
          intro hmem
          exact pib_no_android_archive w root mode ioss (mem_of_mem_ite_nil hmem)
        have ha : ((if ands ≠ [] then (package_android_bundle w root mode ands).1
            else []) : List Event).countP isCargoBuild = 0 := by
          split
          · exact package_android_countP_cargo w root mode ands
          · rfl
        have hi : ((if ioss ≠ [] then (package_ios_bundle w root mode ioss).1
            else []) : List Event).countP isCargoBuild = 0 := by
          split
          · exact pib_countP_cargo w root mode ioss
          · rfl
        refine ⟨?_, ?_, ?_⟩
        · simp only [List.count_append]
          omega
        · refine ⟨setupRustEvents ++
            (((if w.pathExists (outputDir root) then [Event.rmtreeE (outputDir root)] else []) ++
              [Event.mkdirE (outputDir root)]) ++
              (build_loop w (find_android_ndk w) root mode names [] [] []).1),
            (if ands ≠ [] then (package_android_bundle w root mode ands).1 else []) ++
              (if ioss ≠ [] then (package_ios_bundle w root mode ioss).1 else []),
            ?_, ?_, ?_⟩
          · simp [List.append_assoc]
          · simp only [List.count_append]
            omega
          · rw [List.countP_append]
            omega
        · intro res' n t hres hmem hlook hna hni
          have hres' : res = res' := Except.ok.inj hres
          rw [← hres'] at hmem
          rcases build_loop_desktop_archive w (find_android_ndk w) root mode names
              [] [] [] res ands ioss n t hlp hmem hlook hna hni with h | h
          · cases h
          · refine List.mem_append.mpr (Or.inl (List.mem_append.mpr (Or.inl ?_)))
            exact List.mem_append.mpr (Or.inr h)
  · rw [if_pos (fun hcon => hc hcon)]
    refine ⟨by simp, ⟨[], [], rfl, rfl, rfl⟩, ?_⟩
    intro res n t hres hmem _ _ _
    have : ([] : List (String × Bool)) = res := Except.ok.inj hres
    rw [← this] at hmem
    cases hmem

/-- Witness for C7 at a concrete input. -/
theorem C7_single_android_bundle_witness :
    (build wAll ["r"] .release ["linux-x64"]).1.count (androidArchiveE ["r"]) ≤ 1 ∧
    Event.archiveE "gztar" (outputDir ["r"] ++ ["rvpnse-linux-x64"])
        (outputDir ["r"] ++ ["rvpnse-linux-x64"]) ∈
      (build wAll ["r"] .release ["linux-x64"]).1 :=
  ⟨(C7_single_android_bundle wAll ["r"] .release ["linux-x64"]).1,
   (C7_single_android_bundle wAll ["r"] .release ["linux-x64"]).2.2
     [("linux-x64", true)] "linux-x64" tLinux rfl (by decide) rfl
     (by decide) (by decide)⟩

/-- C9 counterexample: on the iOS bundler's early-error path (no
library found for the single requested target) the freshly created
bundle directory is left behind — created, never removed, no archive
produced. -/
theorem C9_counterexample_ios_error_leaves_dir :
    (package_ios_bundle wNone ["r"] .release [tIosArm64]).2 = none ∧
    Event.mkdirE (iosBundleDir ["r"]) ∈
      (package_ios_bundle wNone ["r"] .release [tIosArm64]).1 ∧
    Event.rmtreeE (iosBundleDir ["r"]) ∉
      (package_ios_bundle wNone ["r"] .release [tIosArm64]).1 := by
  decide

/-- C9 (amended): on every packaging path that produces an archive the
staging/bundle directory is removed after archiving; the desktop and
Android paths always remove theirs, but the iOS bundler's early-error
paths leave the created bundle directory in place. -/
theorem C9_staging_removed_on_archive (w : World) (root : FsPath) (mode : BuildMode)
    (t : Target) (ts ts' : List Target) :
    (Event.mkdirE (outputDir root ++ ["rvpnse-" ++ t.name]) ∈
        (package_target w root mode t).1 →
      Event.rmtreeE (outputDir root ++ ["rvpnse-" ++ t.name]) ∈
        (package_target w root mode t).1) ∧
    ((package_target w root mode t).2.isSome →
      Event.rmtreeE (outputDir root ++ ["rvpnse-" ++ t.name]) ∈
        (package_target w root mode t).1) ∧
    Event.rmtreeE (androidBundleDir root) ∈ (package_android_bundle w root mode ts).1 ∧
    ((package_ios_bundle w root mode ts').2.isSome →
      Event.rmtreeE (iosBundleDir root) ∈ (package_ios_bundle w root mode ts').1) := by
  refine ⟨?_, ?_, ?_, ?_⟩
  · intro hmk
    by_cases hl : w.pathExists (libPath root mode t)
    · simp [package_target, hl]
    · simp [package_target, hl] at hmk
  · intro hs
    by_cases hl : w.pathExists (libPath root mode t)
    · simp [package_target, hl]
    · simp [package_target, hl] at hs
  · simp [package_android_bundle]
  · intro hs
    unfold package_ios_bundle at hs ⊢
    by_cases h0 : (iosGroups w root mode ts').1 = [] ∧ (iosGroups w root mode ts').2 = []
    · simp [h0] at hs
    · rw [if_neg h0] at hs ⊢
      by_cases hd : (frameworkStep w (deviceFwDir root) (iosGroups w root mode ts').1).2
      · rw [if_neg (by simp [hd])] at hs ⊢
        by_cases hsm : (frameworkStep w (simFwDir root) (iosGroups w root mode ts').2).2
        · rw [if_neg (by simp [hsm])] at hs ⊢
          simp
        · rw [if_pos (by simp [hsm])] at hs
          simp at hs
      · rw [if_pos (by simp [hd])] at hs
        simp at hs

/-- Witness for C9's amended theorem at a concrete input. -/
theorem C9_staging_removed_witness :
    Event.rmtreeE (outputDir ["r"] ++ ["rvpnse-" ++ tLinux.name]) ∈
      (package_target wAll ["r"] .release tLinux).1 :=
  (C9_staging_removed_on_archive wAll ["r"] .release tLinux [] []).2.1 (by decide)

theorem countP_cargo_setup_clean (w : World) (root : FsPath) :
    (setupRustEvents ++
      ((if w.pathExists (outputDir root) then [Event.rmtreeE (outputDir root)] else []) ++
        [Event.mkdirE (outputDir root)])).countP isCargoBuild = 0 := by
  rw [List.countP_append, List.countP_append]
  have h1 : setupRustEvents.countP isCargoBuild = 0 := by decide
  have h2 : ((if w.pathExists (outputDir root) then
      [Event.rmtreeE (outputDir root)] else []) : List Event).countP isCargoBuild = 0 := by
    split <;> simp [isCargoBuild, List.countP_cons]
  have h3 : ([Event.mkdirE (outputDir root)] : List Event).countP isCargoBuild = 0 := by
    simp [isCargoBuild, List.countP_cons]
  omega

/-- C1: if any requested name is missing from the registry, `build()`
returns a result mapping with no entry at all (the valid names
included) and performs zero `cargo build` invocations. -/
theorem C1_unknown_name_rejects_batch (w : World) (root : FsPath) (mode : BuildMode)
    (names : List String) (h : ∃ n ∈ names, lookupTarget n = none) :
    (build w root mode names).2 = .ok [] ∧
    (build w root mode names).1.countP isCargoBuild = 0 := by
  obtain ⟨n, hn, hnone⟩ := h
  have hinv : names.filter (fun m => (lookupTarget m).isNone) ≠ [] :=
    List.ne_nil_of_mem (List.mem_filter.mpr ⟨hn, by rw [hnone]; rfl⟩)
  unfold build
  by_cases hc : w.cargoAvailable = true
  · rw [if_neg (fun hcon => hcon hc), if_pos hinv]
    exact ⟨rfl, countP_cargo_setup_clean w root⟩
  · rw [if_pos (fun hcon => hc hcon)]
    exact ⟨rfl, rfl⟩

/-- Witness for C1 at a concrete input. -/
theorem C1_unknown_name_witness :
    (build wAll ["r"] .release ["linux-x64", "bogus"]).2 = .ok [] ∧
    (build wAll ["r"] .release ["linux-x64", "bogus"]).1.countP isCargoBuild = 0 :=
  C1_unknown_name_rejects_batch wAll ["r"] .release ["linux-x64", "bogus"]
    ⟨"bogus", by decide, by decide⟩

/-- C10: `build()` deletes and recreates the output directory before
validating the requested names, so a batch rejected for an unknown name
(performing zero builds and returning an empty mapping) still erases
all previously produced archives. -/
theorem C10_output_cleared_before_validation (w : World) (root : FsPath) (mode : BuildMode)
    (names : List String) (hc : w.cargoAvailable = true)
    (h : ∃ n ∈ names, lookupTarget n = none) :
    (build w root mode names).2 = .ok [] ∧
    Event.mkdirE (outputDir root) ∈ (build w root mode names).1 ∧
    (w.pathExists (outputDir root) = true →
      Event.rmtreeE (outputDir root) ∈ (build w root mode names).1) ∧
    (build w root mode names).1.countP isCargoBuild = 0 := by
  obtain ⟨n, hn, hnone⟩ := h
  have hinv : names.filter (fun m => (lookupTarget m).isNone) ≠ [] :=
    List.ne_nil_of_mem (List.mem_filter.mpr ⟨hn, by rw [hnone]; rfl⟩)
  unfold build
  rw [if_neg (fun hcon => hcon hc), if_pos hinv]
  refine ⟨rfl, ?_, ?_, countP_cargo_setup_clean w root⟩
  · simp
  · intro hex
    simp [hex]

/-- Witness for C10 at a concrete input. -/
theorem C10_output_cleared_witness :
    Event.rmtreeE (outputDir ["r"]) ∈ (build wAll ["r"] .release ["bogus"]).1 :=
  (C10_output_cleared_before_validation wAll ["r"] .release ["bogus"] rfl
    ⟨"bogus", by decide, by decide⟩).2.2.1 rfl

/-- C5: contrary to the specified all-targets-succeeded exit contract,
a run whose batch is rejected for an unknown target name exits with
status `0`: `build()` returns an empty mapping, `main` counts zero
successes out of zero entries, and `0 == 0` yields the success exit
code even though the requested targets were never built. -/
theorem C5_exit_zero_despite_config_error :
    mainExit wAll ["r"] .release ["linux-x64", "bogus"] = 0 ∧
    (build wAll ["r"] .release ["linux-x64", "bogus"]).2 = .ok [] :=
  ⟨rfl, rfl⟩

/-- Witness for C8 at concrete inputs. -/
theorem C8_library_name_witness :
    get_library_name ⟨"linux-x64", "x86_64-unknown-linux-gnu", .linux, "x64", none, none⟩ =
      "librvpnse.so" :=
  (C8_library_name_by_family.2
    ⟨"linux-x64", "x86_64-unknown-linux-gnu", .linux, "x64", none, none⟩).2.1
    (Or.inl rfl)

end RVPNSE
